import Mathlib

/-!
Shallow embedding of the predator-prey simulation (`src/main.rs`,
`src/position_systems.rs`).

Modelling conventions:
* Rust `f32` values are modelled as real numbers, `i32` as integers and
  the `u16` status codes as naturals.
* The Bevy `add_systems(Update, (...))` tuple is modelled as a sequential
  pipeline in registration order; query iteration is list order.
* The random draws of `wiggle_squares` are supplied as an input stream.
* `update_transform`, the UI systems and the population history read no
  simulation state and are omitted.
* Deferred `Commands` (spawns in `handle_mating`, despawns in
  `remove_dead`) are applied at the end of their pass, which matches the
  Bevy command flush: they are invisible to the pass's own query.
-/

noncomputable section
open scoped Classical

namespace PredatorPrey

/-- Structure `PositionSize` from position_systems.rs: an axis-aligned box. -/
structure PositionSize where
  x : ℝ
  y : ℝ
  width : ℝ
  height : ℝ

/-- Function `is_colliding` from position_systems.rs: strict AABB overlap. -/
def is_colliding (entity1 entity2 : PositionSize) : Prop :=
  entity1.x < entity2.x + entity2.width ∧ entity1.x + entity1.width > entity2.x ∧
  entity1.y < entity2.y + entity2.height ∧ entity1.y + entity1.height > entity2.y

/-- Rust `f32::atan2` (`(dy).atan2(dx)`), modelled as the argument of the
complex number `dx + dy*I`. -/
def atan2 (y x : ℝ) : ℝ := Complex.arg ⟨x, y⟩

/-- Function `avoid` from position_systems.rs: one fixed-magnitude step away
from the target. -/
def avoid (entity target : PositionSize) (speed : ℝ) : PositionSize :=
  let angle := atan2 (target.y - entity.y) (target.x - entity.x)
  { entity with
      x := entity.x + Real.cos angle * (-1) * speed
      y := entity.y + Real.sin angle * (-1) * speed }

/-- Function `move_towards` from position_systems.rs: one fixed-magnitude
step toward the target. -/
def move_towards (entity target : PositionSize) (speed : ℝ) : PositionSize :=
  let angle := atan2 (target.y - entity.y) (target.x - entity.x)
  { entity with
      x := entity.x + Real.cos angle * speed
      y := entity.y + Real.sin angle * speed }

/-- Function `in_detection_range` from position_systems.rs: Euclidean
distance between box origins, detected iff it is at most the range. -/
def in_detection_range (entity1 entity2 : PositionSize) (detection_range : ℝ) :
    Prop × ℝ :=
  let distance :=
    Real.sqrt ((entity1.x - entity2.x) ^ 2 + (entity1.y - entity2.y) ^ 2)
  (distance ≤ detection_range, distance)

/-- The value of Rust `f32::MAX`, the initial running-minimum sentinel of
the nearest-candidate scans. -/
def f32MAX : ℝ := 340282346638528859811704183484516925440

/-- Rust `f32::round`: round half away from zero. -/
def rustRound (x : ℝ) : ℤ := if 0 ≤ x then round x else -round (-x)

/-- Resource `Settings` from main.rs: the immutable configuration snapshot. -/
structure Settings where
  window_width : ℝ
  window_height : ℝ
  predator_population : ℤ
  prey_population : ℤ
  predator_speed : ℝ
  prey_speed : ℝ
  predator_life : ℤ
  prey_life : ℤ
  prey_energy_loss : ℤ
  predator_energy_loss : ℤ
  prey_idle_energy_gain : ℤ
  predator_hunt_energy_gain : ℤ
  prey_reproduction_energy : ℤ
  predator_reproduction_energy : ℤ
  prey_detection_range : ℝ
  predator_detection_range : ℝ
  default_dimensions : ℝ
  environment_grow_rate : ℝ
  environment_max : ℤ
  wiggle_when_hunted : Bool

/-- One simulated entity: the components `Predator`/`Prey` (`status`),
`Mortal` (`dead`), `Life` (`life`), `PositionSize` (`pos`) and
`MatingTarget` (`target`, `targetIdx`); `idx` is the Bevy entity index
used by the reproduction tie-break. -/
structure Agent where
  idx : ℕ
  status : ℕ
  dead : Bool
  life : ℤ
  pos : PositionSize
  target : Option PositionSize
  targetIdx : Option ℕ

/-- The simulation state: both species' entity lists (in query iteration
order), the `Environment` singleton's pool, and the next fresh entity
index. -/
structure World where
  predators : List Agent
  preys : List Agent
  energy_pool : ℤ
  nextIdx : ℕ

/-- Function `can_mate` from main.rs: false while hunting or being hunted
(status 2), otherwise an energy comparison. -/
def can_mate (current_energy required_energy : ℤ) (status : ℕ) : Prop :=
  ¬ status = 2 ∧ required_energy ≤ current_energy

/-- System `update_environment` from main.rs: bounded multiplicative
growth of the shared pool. -/
def update_environment (s : Settings) (w : World) : World :=
  { w with energy_pool := min (rustRound ((w.energy_pool : ℝ) *
      s.environment_grow_rate)) s.environment_max }

/-- Loop body of `wiggle_squares` for one entity. -/
def wiggleOne (j : ℝ × ℝ) (a : Agent) : Agent :=
  { a with pos := { a.pos with x := a.pos.x + j.1, y := a.pos.y + j.2 } }

/-- System `wiggle_squares` from position_systems.rs, the random draws
supplied as a stream indexed over predators then preys. -/
def wiggle_squares (j : ℕ → ℝ × ℝ) (w : World) : World :=
  { w with
      predators := w.predators.mapIdx (fun i a => wiggleOne (j i) a),
      preys := w.preys.mapIdx (fun i a => wiggleOne (j (w.predators.length + i)) a) }

/-- The running-minimum scan for the nearest detected candidate, starting
from `(None, f32::MAX)` (the perception loops of `update_predators` and
`update_preys`). -/
def findClosest (self : PositionSize) (detection_range : ℝ)
    (cands : List PositionSize) : Option PositionSize × ℝ :=
  cands.foldl
    (fun acc c =>
      let r := in_detection_range self c detection_range
      if r.1 ∧ r.2 < acc.2 then (some c, r.2) else acc)
    (none, f32MAX)

/-- Loop body of `update_predators` for one predator: status
classification, then movement. -/
def updatePredatorStep (s : Settings) (preyPos : List PositionSize)
    (a : Agent) : Agent :=
  let closest := (findClosest a.pos s.predator_detection_range preyPos).1
  let st : ℕ := if a.target.isSome then 1 else if closest.isSome then 2 else 0
  let pos :=
    if st = 1 then
      match a.target with
      | some t => move_towards a.pos t s.predator_speed
      | none => a.pos
    else if st = 2 then
      match closest with
      | some c => move_towards a.pos c s.predator_speed
      | none => a.pos
    else a.pos
  { a with status := st, pos := pos }

/-- System `update_predators` from main.rs. -/
def update_predators (s : Settings) (w : World) : World :=
  { w with predators :=
      w.predators.map (updatePredatorStep s (w.preys.map Agent.pos)) }

/-- Loop body of `update_preys` for one prey: status classification,
movement, then feeding from the environment pool. -/
def updatePreyStep (s : Settings) (predatorPos : List PositionSize)
    (pool : ℤ) (a : Agent) : ℤ × Agent :=
  let closest := (findClosest a.pos s.prey_detection_range predatorPos).1
  let st : ℕ :=
    if closest.isSome then 2
    else if can_mate a.life s.prey_reproduction_energy a.status then 1
    else 0
  let pos :=
    if st = 2 then
      match closest with
      | some c => avoid a.pos c s.prey_speed
      | none => a.pos
    else if st = 1 ∧ a.target.isSome then
      match a.target with
      | some t => move_towards a.pos t s.prey_speed
      | none => a.pos
    else a.pos
  let feeds := 0 < pool ∧ ¬ st = 3
  ((if feeds then pool - 1 else pool),
   { a with status := st, pos := pos,
            life := if feeds then a.life + 1 else a.life })

/-- Sequential traversal of the prey list threading the shared pool. -/
def updatePreysGo (s : Settings) (predatorPos : List PositionSize) :
    ℤ → List Agent → ℤ × List Agent
  | pool, [] => (pool, [])
  | pool, a :: rest =>
    let r := updatePreyStep s predatorPos pool a
    let r2 := updatePreysGo s predatorPos r.1 rest
    (r2.1, r.2 :: r2.2)

/-- System `update_preys` from main.rs. -/
def update_preys (s : Settings) (w : World) : World :=
  let r := updatePreysGo s (w.predators.map Agent.pos) w.energy_pool w.preys
  { w with energy_pool := r.1, preys := r.2 }

/-- The candidate scan of `try_mate_prey`: nearest same-species candidate
skipping the seeker itself and under-energy candidates, recording the
candidate's position and entity index. -/
def mateScanPrey (s : Settings) (seekerIdx : ℕ) (seekerPos : PositionSize)
    (targets : List Agent) : Option PositionSize × Option ℕ × ℝ :=
  targets.foldl
    (fun acc t =>
      if t.idx = seekerIdx ∨ t.life < s.prey_reproduction_energy then acc
      else
        let r := in_detection_range seekerPos t.pos s.prey_detection_range
        if r.1 ∧ r.2 < acc.2.2 then (some t.pos, some t.idx, r.2) else acc)
    (none, none, f32MAX)

/-- Loop body of `try_mate_prey` for one seeker. -/
def tryMatePreyStep (s : Settings) (targets : List Agent) (a : Agent) : Agent :=
  if a.life < s.prey_reproduction_energy then a
  else
    let r := mateScanPrey s a.idx a.pos targets
    match r.1 with
    | some p => { a with target := some p, targetIdx := r.2.1 }
    | none => a

/-- System `try_mate_prey` from main.rs. -/
def try_mate_prey (s : Settings) (w : World) : World :=
  { w with preys := w.preys.map (tryMatePreyStep s w.preys) }

/-- The candidate scan of `try_mate_predator`: as for prey, but the code
tracks only the candidate position, never its entity index. -/
def mateScanPredator (s : Settings) (seekerIdx : ℕ) (seekerPos : PositionSize)
    (targets : List Agent) : Option PositionSize × ℝ :=
  targets.foldl
    (fun acc t =>
      if t.idx = seekerIdx ∨ t.life < s.predator_reproduction_energy then acc
      else
        let r := in_detection_range seekerPos t.pos s.predator_detection_range
        if r.1 ∧ r.2 < acc.2 then (some t.pos, r.2) else acc)
    (none, f32MAX)

/-- Loop body of `try_mate_predator` for one seeker: only the `entity`
field of the mating target is written, `index` is left as it was. -/
def tryMatePredatorStep (s : Settings) (targets : List Agent) (a : Agent) :
    Agent :=
  if a.life < s.predator_reproduction_energy then a
  else
    match (mateScanPredator s a.idx a.pos targets).1 with
    | some p => { a with target := some p }
    | none => a

/-- System `try_mate_predator` from main.rs. -/
def try_mate_predator (s : Settings) (w : World) : World :=
  { w with predators := w.predators.map (tryMatePredatorStep s w.predators) }

/-- A newborn entity as spawned by `handle_mating`: idle, alive, no
mating target, default dimensions. -/
def newborn (s : Settings) (lifeValue : ℤ) (idx : ℕ) (p : ℝ × ℝ) : Agent :=
  { idx := idx, status := 0, dead := false, life := lifeValue,
    pos := { x := p.1, y := p.2, width := s.default_dimensions,
             height := s.default_dimensions },
    target := none, targetIdx := none }

/-- Loop body of `handle_mating` for one entity: the updated entity and,
when it spawns, the offspring's midpoint position. The skip conditions
and the index tie-break follow main.rs lines 364-384. -/
def mateStep (required : ℤ) (isPrey : Bool) (a : Agent) :
    Agent × Option (ℝ × ℝ) :=
  if (a.status = 2 ∧ isPrey = true) ∨ a.life < required then (a, none)
  else
    match a.target with
    | none => (a, none)
    | some t =>
      if ¬ is_colliding a.pos t then (a, none)
      else if (match a.targetIdx with
               | some i => a.idx < i
               | none => False) then (a, none)
      else
        ({ a with life := a.life - required, target := none, targetIdx := none },
         some ((a.pos.x + t.x) / 2, (a.pos.y + t.y) / 2))

/-- System `handle_mating` from main.rs: every predator or prey is
processed once against its recorded target snapshot; spawned offspring
are deferred commands with fresh entity indices. -/
def handle_mating (s : Settings) (w : World) : World :=
  let pr := w.predators.map (mateStep s.predator_reproduction_energy false)
  let py := w.preys.map (mateStep s.prey_reproduction_energy true)
  let predatorSpawns := pr.filterMap Prod.snd
  let preySpawns := py.filterMap Prod.snd
  { predators := pr.map Prod.fst ++
      predatorSpawns.mapIdx (fun i p => newborn s s.predator_life (w.nextIdx + i) p),
    preys := py.map Prod.fst ++
      preySpawns.mapIdx (fun i p =>
        newborn s s.prey_life (w.nextIdx + predatorSpawns.length + i) p),
    energy_pool := w.energy_pool,
    nextIdx := w.nextIdx + predatorSpawns.length + preySpawns.length }

/-- Loop body of `window_collision` for one box: clamp into the window
rectangle, min then max on each axis. -/
def clampPos (width height : ℝ) (p : PositionSize) : PositionSize :=
  { p with
      x := max (min p.x (width / 2)) (width / -2),
      y := max (min p.y (height / 2)) (height / -2) }

/-- System `window_collision` from position_systems.rs, the window size
fixed at startup from the settings. -/
def window_collision (s : Settings) (w : World) : World :=
  { w with
      predators := w.predators.map
        (fun a => { a with pos := clampPos s.window_width s.window_height a.pos }),
      preys := w.preys.map
        (fun a => { a with pos := clampPos s.window_width s.window_height a.pos }) }

/-- Inner loop of `handle_hostile_collisions`: one prey against the
predator list, threading the prey's `Mortal` flag, which is re-read on
every iteration. -/
def hostileInner (preyPos : PositionSize) : Bool → List Agent → Bool × List Agent
  | d, [] => (d, [])
  | d, q :: rest =>
    if is_colliding preyPos q.pos ∧ d = false then
      let r := hostileInner preyPos true rest
      (r.1, { q with life := q.life + 500 } :: r.2)
    else
      let r := hostileInner preyPos d rest
      (r.1, q :: r.2)

/-- Outer loop of `handle_hostile_collisions` over the prey list,
threading the predator list. -/
def hostileOuter : List Agent → List Agent → List Agent × List Agent
  | [], qs => ([], qs)
  | p :: ps, qs =>
    let r := hostileInner p.pos p.dead qs
    let r2 := hostileOuter ps r.2
    ({ p with dead := r.1 } :: r2.1, r2.2)

/-- System `handle_hostile_collisions` from main.rs. -/
def handle_hostile_collisions (w : World) : World :=
  let r := hostileOuter w.preys w.predators
  { w with preys := r.1, predators := r.2 }

/-- System `remove_dead` from main.rs: despawn every entity whose
`Mortal` flag is set. -/
def remove_dead (w : World) : World :=
  { w with
      predators := w.predators.filter (fun a => !a.dead),
      preys := w.preys.filter (fun a => !a.dead) }

/-- Loop body of `drain_life` for a predator: unconditional drain, then
the mortality check. -/
def drainPredator (s : Settings) (a : Agent) : Agent :=
  let l := a.life - s.predator_energy_loss
  { a with life := l, dead := if l ≤ 0 then true else a.dead }

/-- Loop body of `drain_life` for a prey: drain only in status 3, then
the mortality check. -/
def drainPrey (s : Settings) (a : Agent) : Agent :=
  let l := if a.status = 3 then a.life - s.prey_energy_loss else a.life
  { a with life := l, dead := if l ≤ 0 then true else a.dead }

/-- System `drain_life` from main.rs. -/
def drain_life (s : Settings) (w : World) : World :=
  { w with
      predators := w.predators.map (drainPredator s),
      preys := w.preys.map (drainPrey s) }

/-- One simulation tick: the `add_systems(Update, ...)` tuple of main.rs
as a sequential pipeline in registration order. -/
def tick (s : Settings) (j : ℕ → ℝ × ℝ) (w : World) : World :=
  drain_life s (remove_dead (handle_hostile_collisions (window_collision s
    (try_mate_predator s (try_mate_prey s (update_predators s (update_preys s
      (handle_mating s (wiggle_squares j (update_environment s w))))))))))

/-- A run: iterated ticks, with per-tick jitter draws `J n`. -/
def run (s : Settings) (J : ℕ → ℕ → ℝ × ℝ) (w0 : World) : ℕ → World
  | 0 => w0
  | n + 1 => tick s (J n) (run s J w0 n)

/-- The initial pool set up by `setup` in main.rs (`i32` division
truncates toward zero). -/
def initial_energy_pool (s : Settings) : ℤ := Int.tdiv s.environment_max 2

/-! ### Characterization of the running-minimum perception scan -/

/-- The running-minimum scan returns no candidate iff it started with none
and no candidate is detected strictly closer than the running bound. -/
lemma foldClosest_eq_none_iff (self : PositionSize) (dr : ℝ)
    (l : List PositionSize) (o : Option PositionSize) (b : ℝ) :
    (l.foldl
      (fun acc c =>
        let r := in_detection_range self c dr
        if r.1 ∧ r.2 < acc.2 then (some c, r.2) else acc)
      (o, b)).1 = none ↔
    (o = none ∧ ∀ c ∈ l,
      ¬((in_detection_range self c dr).1 ∧ (in_detection_range self c dr).2 < b)) := by
  induction l generalizing o b with
  | nil => simp
  | cons c rest ih =>
    simp only [List.foldl_cons]
    by_cases h : (in_detection_range self c dr).1 ∧ (in_detection_range self c dr).2 < b
    · simp only [h, and_self, if_pos, ih, List.forall_mem_cons]
      simp [h]
    · simp only [if_neg h, ih, List.forall_mem_cons]
      tauto

/-- `findClosest` finds a candidate iff some list element is detected at a
distance below the `f32::MAX` sentinel. -/
lemma findClosest_isSome_iff (self : PositionSize) (dr : ℝ)
    (l : List PositionSize) :
    (findClosest self dr l).1.isSome = true ↔
    ∃ c ∈ l, (in_detection_range self c dr).1 ∧
      (in_detection_range self c dr).2 < f32MAX := by
  constructor
  · intro h
    by_contra hc
    push_neg at hc
    have hnone : (findClosest self dr l).1 = none := by
      rw [findClosest, foldClosest_eq_none_iff]
      exact ⟨rfl, fun c hm hb => absurd hb.2 (not_lt.mpr (hc c hm hb.1))⟩
    simp [hnone] at h
  · intro hex
    obtain ⟨c, hm, hdet⟩ := hex
    rw [Option.isSome_iff_ne_none]
    intro hnone
    rw [findClosest, foldClosest_eq_none_iff] at hnone
    exact hnone.2 c hm hdet

/-- The status a prey is assigned by `update_preys`, read off the step
function. -/
lemma updatePreyStep_status (s : Settings) (predatorPos : List PositionSize)
    (pool : ℤ) (a : Agent) :
    (updatePreyStep s predatorPos pool a).2.status =
      if (findClosest a.pos s.prey_detection_range predatorPos).1.isSome = true then 2
      else if can_mate a.life s.prey_reproduction_energy a.status then 1
      else 0 := by
  rfl

/-! ### C5: how a prey's status is recomputed each tick -/

/-- C5 (amended): every tick a prey's status is set to 2 (Avoiding) iff a
predator is detected within range (at a distance below the `f32::MAX`
sentinel); otherwise it is set to 1 (Mating) iff the PREVIOUS tick's
status was not 2 and current energy is at least the reproduction
threshold — the mating target plays no role, and the previous status
does; otherwise it is set to 0 (Idle). -/
theorem prey_status_recomputed (s : Settings) (predatorPos : List PositionSize)
    (pool : ℤ) (a : Agent) :
    ((updatePreyStep s predatorPos pool a).2.status = 2 ↔
      (∃ c ∈ predatorPos, (in_detection_range a.pos c s.prey_detection_range).1 ∧
        (in_detection_range a.pos c s.prey_detection_range).2 < f32MAX)) ∧
    ((updatePreyStep s predatorPos pool a).2.status = 1 ↔
      (¬ ∃ c ∈ predatorPos, (in_detection_range a.pos c s.prey_detection_range).1 ∧
        (in_detection_range a.pos c s.prey_detection_range).2 < f32MAX) ∧
      (¬ a.status = 2 ∧ s.prey_reproduction_energy ≤ a.life)) ∧
    ((updatePreyStep s predatorPos pool a).2.status = 0 ↔
      (¬ ∃ c ∈ predatorPos, (in_detection_range a.pos c s.prey_detection_range).1 ∧
        (in_detection_range a.pos c s.prey_detection_range).2 < f32MAX) ∧
      ¬(¬ a.status = 2 ∧ s.prey_reproduction_energy ≤ a.life)) := by
  have hs := updatePreyStep_status s predatorPos pool a
  by_cases h1 : (∃ c ∈ predatorPos,
      (in_detection_range a.pos c s.prey_detection_range).1 ∧
      (in_detection_range a.pos c s.prey_detection_range).2 < f32MAX)
  · rw [hs, if_pos ((findClosest_isSome_iff _ _ _).mpr h1)]
    simp [h1]
  · rw [hs, if_neg (fun h => h1 ((findClosest_isSome_iff _ _ _).mp h))]
    simp only [can_mate]
    by_cases h2 : ¬ a.status = 2 ∧ s.prey_reproduction_energy ≤ a.life
    · rw [if_pos h2]
      simp [h1, h2.1, h2.2]
    · rw [if_neg h2]
      simp [h1, h2]

/-- Concrete settings used by the concrete-scenario theorems. -/
def sTest : Settings :=
  { window_width := 800, window_height := 600, predator_population := 0,
    prey_population := 0, predator_speed := 0, prey_speed := 0,
    predator_life := 100, prey_life := 100, prey_energy_loss := 1,
    predator_energy_loss := 1, prey_idle_energy_gain := 7,
    predator_hunt_energy_gain := 7, prey_reproduction_energy := 200,
    predator_reproduction_energy := 200, prey_detection_range := 60,
    predator_detection_range := 60, default_dimensions := 4,
    environment_grow_rate := 1, environment_max := 1000,
    wiggle_when_hunted := false }

/-- A prey that was avoiding a predator on the previous tick, now with no
predator anywhere, an unresolved mating target and energy 300 above the
threshold 200. -/
def preyAvoidedLastTick : Agent :=
  { idx := 0, status := 2, dead := false, life := 300,
    pos := ⟨0, 0, 4, 4⟩, target := some ⟨1, 1, 4, 4⟩, targetIdx := some 5 }

/-- A world holding only that prey and no predators at all. -/
def wStale : World :=
  { predators := [], preys := [preyAvoidedLastTick], energy_pool := 0,
    nextIdx := 1 }

/-- C5 is false on the code: with no predator in range, an unresolved
mating target and energy 300 at or above the threshold 200, the claim
requires status Mating (1), but the code yields Idle (0) because last
tick's status was 2; flipping only the previous status to 0 yields 1, so
the previous tick's status does influence the result. -/
theorem prey_status_stale_counterexample :
    (update_preys sTest wStale).preys.map Agent.status = [0] ∧
    (update_preys sTest
      { wStale with preys := [{ preyAvoidedLastTick with status := 0 }] }).preys.map
        Agent.status = [1] := by
  constructor <;>
    simp [update_preys, updatePreysGo, updatePreyStep, findClosest, can_mate,
      wStale, preyAvoidedLastTick, sTest]

/-! ### Characterization of the mating candidate scan -/

/-- The prey mating scan yields no candidate iff it started with none and
no non-skipped candidate is detected strictly closer than the bound. -/
lemma mateScanGoPrey_eq_none_iff (s : Settings) (k : ℕ) (pos : PositionSize)
    (l : List Agent) (o : Option PositionSize) (oi : Option ℕ) (b : ℝ) :
    (l.foldl
      (fun acc t =>
        if t.idx = k ∨ t.life < s.prey_reproduction_energy then acc
        else
          let r := in_detection_range pos t.pos s.prey_detection_range
          if r.1 ∧ r.2 < acc.2.2 then (some t.pos, some t.idx, r.2) else acc)
      (o, oi, b)).1 = none ↔
    (o = none ∧ ∀ t ∈ l, ¬(t.idx = k ∨ t.life < s.prey_reproduction_energy) →
      ¬((in_detection_range pos t.pos s.prey_detection_range).1 ∧
        (in_detection_range pos t.pos s.prey_detection_range).2 < b)) := by
  induction l generalizing o oi b with
  | nil => simp
  | cons t rest ih =>
    simp only [List.foldl_cons]
    by_cases hskip : t.idx = k ∨ t.life < s.prey_reproduction_energy
    · simp only [if_pos hskip, ih, List.forall_mem_cons]
      tauto
    · simp only [if_neg hskip]
      by_cases h : (in_detection_range pos t.pos s.prey_detection_range).1 ∧
          (in_detection_range pos t.pos s.prey_detection_range).2 < b
      · simp only [h, and_self, if_pos, ih, List.forall_mem_cons]
        simp [hskip, h]
      · simp only [if_neg h, ih, List.forall_mem_cons]
        tauto

/-- The prey mating scan finds a candidate iff some list entry other than
the seeker, with at least the reproduction threshold, is detected at a
distance below the `f32::MAX` sentinel. -/
lemma mateScanPrey_isSome_iff (s : Settings) (k : ℕ) (pos : PositionSize)
    (l : List Agent) :
    (mateScanPrey s k pos l).1.isSome = true ↔
    ∃ t ∈ l, ¬(t.idx = k ∨ t.life < s.prey_reproduction_energy) ∧
      (in_detection_range pos t.pos s.prey_detection_range).1 ∧
      (in_detection_range pos t.pos s.prey_detection_range).2 < f32MAX := by
  constructor
  · intro h
    by_contra hc
    push_neg at hc
    have hnone : (mateScanPrey s k pos l).1 = none := by
      rw [mateScanPrey, mateScanGoPrey_eq_none_iff]
      refine ⟨rfl, fun t hm hsk hb => ?_⟩
      rw [not_or] at hsk
      exact absurd hb.2 (not_lt.mpr (hc t hm ⟨hsk.1, not_lt.mp hsk.2⟩ hb.1))
    simp [hnone] at h
  · intro hex
    obtain ⟨t, hm, hsk, hdet⟩ := hex
    rw [Option.isSome_iff_ne_none]
    intro hnone
    rw [mateScanPrey, mateScanGoPrey_eq_none_iff] at hnone
    exact hnone.2 t hm hsk hdet

/-- Whatever the prey mating scan returns is either its initial state or
the data of one of the non-skipped detected candidates. -/
lemma mateScanGoPrey_origin (s : Settings) (k : ℕ) (pos : PositionSize)
    (l : List Agent) (o : Option PositionSize) (oi : Option ℕ) (b : ℝ) :
    (l.foldl
      (fun acc t =>
        if t.idx = k ∨ t.life < s.prey_reproduction_energy then acc
        else
          let r := in_detection_range pos t.pos s.prey_detection_range
          if r.1 ∧ r.2 < acc.2.2 then (some t.pos, some t.idx, r.2) else acc)
      (o, oi, b)) = (o, oi, b) ∨
    (∃ t ∈ l, ¬(t.idx = k ∨ t.life < s.prey_reproduction_energy) ∧
      (in_detection_range pos t.pos s.prey_detection_range).1 ∧
      (l.foldl
        (fun acc t =>
          if t.idx = k ∨ t.life < s.prey_reproduction_energy then acc
          else
            let r := in_detection_range pos t.pos s.prey_detection_range
            if r.1 ∧ r.2 < acc.2.2 then (some t.pos, some t.idx, r.2) else acc)
        (o, oi, b)) =
        (some t.pos, some t.idx,
          (in_detection_range pos t.pos s.prey_detection_range).2)) := by
  induction l generalizing o oi b with
  | nil => simp
  | cons t rest ih =>
    simp only [List.foldl_cons]
    by_cases hskip : t.idx = k ∨ t.life < s.prey_reproduction_energy
    · simp only [if_pos hskip]
      rcases ih o oi b with h | ⟨u, hu, hsk, hdet, heq⟩
      · exact Or.inl h
      · exact Or.inr ⟨u, List.mem_cons_of_mem _ hu, hsk, hdet, heq⟩
    · simp only [if_neg hskip]
      by_cases h : (in_detection_range pos t.pos s.prey_detection_range).1 ∧
          (in_detection_range pos t.pos s.prey_detection_range).2 < b
      · simp only [h, and_self, if_pos]
        rcases ih (some t.pos) (some t.idx)
            (in_detection_range pos t.pos s.prey_detection_range).2 with
          h2 | ⟨u, hu, hsk, hdet, heq⟩
        · exact Or.inr ⟨t, List.mem_cons_self t rest, hskip, h.1, h2⟩
        · exact Or.inr ⟨u, List.mem_cons_of_mem _ hu, hsk, hdet, heq⟩
      · simp only [if_neg h]
        rcases ih o oi b with h2 | ⟨u, hu, hsk, hdet, heq⟩
        · exact Or.inl h2
        · exact Or.inr ⟨u, List.mem_cons_of_mem _ hu, hsk, hdet, heq⟩

/-- The distance the prey mating scan ends with never exceeds its starting
bound nor the distance of any non-skipped detected candidate. -/
lemma mateScanGoPrey_min (s : Settings) (k : ℕ) (pos : PositionSize)
    (l : List Agent) (o : Option PositionSize) (oi : Option ℕ) (b : ℝ) :
    (l.foldl
      (fun acc t =>
        if t.idx = k ∨ t.life < s.prey_reproduction_energy then acc
        else
          let r := in_detection_range pos t.pos s.prey_detection_range
          if r.1 ∧ r.2 < acc.2.2 then (some t.pos, some t.idx, r.2) else acc)
      (o, oi, b)).2.2 ≤ b ∧
    ∀ t ∈ l, ¬(t.idx = k ∨ t.life < s.prey_reproduction_energy) →
      (in_detection_range pos t.pos s.prey_detection_range).1 →
      (l.foldl
        (fun acc t =>
          if t.idx = k ∨ t.life < s.prey_reproduction_energy then acc
          else
            let r := in_detection_range pos t.pos s.prey_detection_range
            if r.1 ∧ r.2 < acc.2.2 then (some t.pos, some t.idx, r.2) else acc)
        (o, oi, b)).2.2 ≤ (in_detection_range pos t.pos s.prey_detection_range).2 := by
  induction l generalizing o oi b with
  | nil => simp
  | cons t rest ih =>
    simp only [List.foldl_cons]
    by_cases hskip : t.idx = k ∨ t.life < s.prey_reproduction_energy
    · simp only [if_pos hskip, List.forall_mem_cons]
      exact ⟨(ih o oi b).1, fun hsk => absurd hskip hsk, (ih o oi b).2⟩
    · simp only [if_neg hskip]
      by_cases h : (in_detection_range pos t.pos s.prey_detection_range).1 ∧
          (in_detection_range pos t.pos s.prey_detection_range).2 < b
      · simp only [h, and_self, if_pos, List.forall_mem_cons]
        have hle := (ih (some t.pos) (some t.idx)
          (in_detection_range pos t.pos s.prey_detection_range).2).1
        refine ⟨le_of_lt (lt_of_le_of_lt hle h.2), fun _ _ => hle,
          (ih (some t.pos) (some t.idx)
            (in_detection_range pos t.pos s.prey_detection_range).2).2⟩
      · simp only [if_neg h, List.forall_mem_cons]
        refine ⟨(ih o oi b).1, fun _ hdet => ?_, (ih o oi b).2⟩
        have hb : b ≤ (in_detection_range pos t.pos s.prey_detection_range).2 := by
          by_contra hlt
          exact h ⟨hdet, lt_of_not_le hlt⟩
        exact le_trans (ih o oi b).1 hb

/-! ### C8: when a mating target is acquired -/

/-- C8 (amended): a prey seeker overwrites its mating target iff its
energy is at least (not strictly above) the threshold and some candidate
other than itself, also at or above the threshold, is detected within
range (below the f32::MAX sentinel) — the seeker's status is never
consulted; what is recorded is the nearest such candidate's position
snapshot and entity index; a predator seeker records only the position,
its stored index is left untouched. -/
theorem mating_target_acquisition (s : Settings) (targets : List Agent)
    (a : Agent) :
    (∀ st, tryMatePreyStep s targets { a with status := st } =
      { tryMatePreyStep s targets a with status := st }) ∧
    (a.life < s.prey_reproduction_energy → tryMatePreyStep s targets a = a) ∧
    ((mateScanPrey s a.idx a.pos targets).1.isSome = true ↔
      ∃ t ∈ targets, ¬(t.idx = a.idx ∨ t.life < s.prey_reproduction_energy) ∧
        (in_detection_range a.pos t.pos s.prey_detection_range).1 ∧
        (in_detection_range a.pos t.pos s.prey_detection_range).2 < f32MAX) ∧
    (s.prey_reproduction_energy ≤ a.life →
      (∀ p, (mateScanPrey s a.idx a.pos targets).1 = some p →
        tryMatePreyStep s targets a =
          { a with target := some p,
                   targetIdx := (mateScanPrey s a.idx a.pos targets).2.1 }) ∧
      ((mateScanPrey s a.idx a.pos targets).1 = none →
        tryMatePreyStep s targets a = a)) ∧
    (∀ p oi d, mateScanPrey s a.idx a.pos targets = (some p, oi, d) →
      (∃ t ∈ targets, ¬(t.idx = a.idx ∨ t.life < s.prey_reproduction_energy) ∧
        (in_detection_range a.pos t.pos s.prey_detection_range).1 ∧
        p = t.pos ∧ oi = some t.idx ∧
        d = (in_detection_range a.pos t.pos s.prey_detection_range).2) ∧
      (∀ t ∈ targets, ¬(t.idx = a.idx ∨ t.life < s.prey_reproduction_energy) →
        (in_detection_range a.pos t.pos s.prey_detection_range).1 →
        d ≤ (in_detection_range a.pos t.pos s.prey_detection_range).2)) ∧
    ((tryMatePredatorStep s targets a).targetIdx = a.targetIdx) := by
  refine ⟨?_, ?_, mateScanPrey_isSome_iff s a.idx a.pos targets, ?_, ?_, ?_⟩
  · intro st
    by_cases h : a.life < s.prey_reproduction_energy
    · simp [tryMatePreyStep, h]
    · simp only [tryMatePreyStep, if_neg h]
      cases hsc : (mateScanPrey s a.idx a.pos targets).1 <;> simp [hsc]
  · intro h
    simp [tryMatePreyStep, h]
  · intro h
    constructor
    · intro p hp
      simp [tryMatePreyStep, if_neg (not_lt.mpr h), hp]
    · intro hp
      simp [tryMatePreyStep, if_neg (not_lt.mpr h), hp]
  · intro p oi d heq
    have horigin := mateScanGoPrey_origin s a.idx a.pos targets none none f32MAX
    have hmin := mateScanGoPrey_min s a.idx a.pos targets none none f32MAX
    rw [show (targets.foldl
        (fun acc t =>
          if t.idx = a.idx ∨ t.life < s.prey_reproduction_energy then acc
          else
            let r := in_detection_range a.pos t.pos s.prey_detection_range
            if r.1 ∧ r.2 < acc.2.2 then (some t.pos, some t.idx, r.2) else acc)
        (none, none, f32MAX)) = mateScanPrey s a.idx a.pos targets from rfl]
      at horigin hmin
    rw [heq] at horigin hmin
    constructor
    · rcases horigin with h | ⟨t, hm, hsk, hdet, ht⟩
      · exact absurd (congrArg Prod.fst h) (by simp)
      · obtain ⟨h1, h2, h3⟩ := Prod.mk.injEq .. ▸ ht
        exact ⟨t, hm, hsk, hdet, by simpa using h1, by simpa using (congrArg (fun q => q.2.1) ht), by simpa using (congrArg (fun q => q.2.2) ht)⟩
    · intro t hm hsk hdet
      simpa using hmin.2 t hm hsk hdet
  · simp only [tryMatePredatorStep]
    by_cases h : a.life < s.predator_reproduction_energy
    · simp [h]
    · simp only [if_neg h]
      cases hsc : (mateScanPredator s a.idx a.pos targets).1 <;> simp [hsc]

/-- Helper for concrete detection evaluations: the distance 10 on the
horizontal axis. -/
lemma sqrt_hundred : Real.sqrt 100 = 10 := by
  rw [show (100 : ℝ) = 10 ^ 2 by norm_num]
  exact Real.sqrt_sq (by norm_num)

/-- A prey currently in the avoiding state (status 2) with plenty of
energy, used to show status is not consulted during target acquisition. -/
def preyAvoidingSeeker : Agent :=
  { idx := 0, status := 2, dead := false, life := 300,
    pos := ⟨0, 0, 4, 4⟩, target := none, targetIdx := none }

/-- A second prey 10 units away, also above the threshold. -/
def preyCandidate : Agent :=
  { idx := 1, status := 0, dead := false, life := 300,
    pos := ⟨10, 0, 4, 4⟩, target := none, targetIdx := none }

/-- The two-prey world for the acquisition counterexample. -/
def wAcquire : World :=
  { predators := [], preys := [preyAvoidingSeeker, preyCandidate],
    energy_pool := 0, nextIdx := 2 }

/-- C8 is false on the code: a prey whose status is 2 (avoiding) and
whose energy is exactly at (not above) the threshold would be ineligible
under the claim, yet the code records a mating target for it; here the
avoiding seeker (status 2) acquires the candidate at distance 10. -/
theorem acquisition_ignores_status_counterexample :
    (try_mate_prey sTest wAcquire).preys.map
      (fun a => (a.status, a.target, a.targetIdx)) =
    [(2, some ⟨10, 0, 4, 4⟩, some 1), (0, some ⟨0, 0, 4, 4⟩, some 0)] := by
  have h1 : Real.sqrt (((0 : ℝ) - 10) ^ 2 + ((0 : ℝ) - 0) ^ 2) = 10 := by
    rw [show ((0 : ℝ) - 10) ^ 2 + ((0 : ℝ) - 0) ^ 2 = 100 by norm_num]
    exact sqrt_hundred
  have h2 : Real.sqrt (((10 : ℝ) - 0) ^ 2 + ((0 : ℝ) - 0) ^ 2) = 10 := by
    rw [show ((10 : ℝ) - 0) ^ 2 + ((0 : ℝ) - 0) ^ 2 = 100 by norm_num]
    exact sqrt_hundred
  simp [try_mate_prey, tryMatePreyStep, mateScanPrey, in_detection_range,
    wAcquire, preyAvoidingSeeker, preyCandidate, sTest, h1, h2, f32MAX]
  norm_num [f32MAX]

/-! ### C7: when a mating target is cleared -/

/-- C7 (amended): a mating target is cleared only when its holder
performs its own qualifying consummation (the spawn branch of
handle_mating, which also costs the reproduction energy); the perception
scans never clear a target — when no candidate is found they leave it
untouched (stale targets persist), and the non-spawning partner keeps its
target. -/
theorem mating_target_clearing (s : Settings) (targets : List Agent)
    (a : Agent) (required : ℤ) (isPrey : Bool) :
    ((tryMatePreyStep s targets a).target = none → a.target = none) ∧
    ((tryMatePredatorStep s targets a).target = none → a.target = none) ∧
    ((mateStep required isPrey a).2.isSome = true →
      (mateStep required isPrey a).1.target = none ∧
      (mateStep required isPrey a).1.targetIdx = none ∧
      (mateStep required isPrey a).1.life = a.life - required) ∧
    ((mateStep required isPrey a).2 = none → (mateStep required isPrey a).1 = a) := by
  refine ⟨?_, ?_, ?_⟩
  · by_cases h : a.life < s.prey_reproduction_energy
    · simp [tryMatePreyStep, h]
    · simp only [tryMatePreyStep, if_neg h]
      cases hsc : (mateScanPrey s a.idx a.pos targets).1 <;> simp [hsc]
  · by_cases h : a.life < s.predator_reproduction_energy
    · simp [tryMatePredatorStep, h]
    · simp only [tryMatePredatorStep, if_neg h]
      cases hsc : (mateScanPredator s a.idx a.pos targets).1 <;> simp [hsc]
  · by_cases h1 : (a.status = 2 ∧ isPrey = true) ∨ a.life < required
    · simp [mateStep, h1]
    · cases ht : a.target with
      | none => simp [mateStep, h1, ht]
      | some t =>
        by_cases h2 : ¬ is_colliding a.pos t
        · simp [mateStep, h1, ht, h2]
        · by_cases h3 : (match a.targetIdx with
            | some i => a.idx < i
            | none => False)
          · simp [mateStep, h1, ht, h2, h3]
          · simp [mateStep, h1, ht, h2, h3]

/-- A prey holding a stale mating target with no candidate anywhere in
the world. -/
def preyStaleTarget : Agent :=
  { idx := 0, status := 0, dead := false, life := 300,
    pos := ⟨0, 0, 4, 4⟩, target := some ⟨50, 0, 4, 4⟩, targetIdx := some 7 }

/-- A world holding only that prey. -/
def wStaleTarget : World :=
  { predators := [], preys := [preyStaleTarget], energy_pool := 0,
    nextIdx := 1 }

/-- C7 is false on the code: perception finds no partner for the sole
prey, so under the claim its mating target should be cleared, but the
target-acquisition pass leaves the stale target in place. -/
theorem target_not_cleared_counterexample :
    (try_mate_prey sTest wStaleTarget).preys.map Agent.target =
      [some ⟨50, 0, 4, 4⟩] := by
  simp [try_mate_prey, tryMatePreyStep, mateScanPrey, wStaleTarget,
    preyStaleTarget, sTest]

/-! ### C2: predation kills once, but pays the bounty only once -/

/-- Once the prey's flag is set, the rest of the predator scan is a no-op. -/
lemma hostileInner_of_dead (ppos : PositionSize) (qs : List Agent) :
    hostileInner ppos true qs = (true, qs) := by
  induction qs with
  | nil => simp [hostileInner]
  | cons q rest ih => simp [hostileInner, ih]

/-- A live prey colliding with no predator leaves the scan unchanged. -/
lemma hostileInner_no_collision (ppos : PositionSize) (qs : List Agent)
    (h : ∀ q ∈ qs, ¬ is_colliding ppos q.pos) :
    hostileInner ppos false qs = (false, qs) := by
  induction qs with
  | nil => simp [hostileInner]
  | cons q rest ih =>
    have hq : ¬ (is_colliding ppos q.pos ∧ false = false) := by
      simp [h q (List.mem_cons_self q rest)]
    rw [hostileInner, if_neg hq, ih (fun q hm => h q (List.mem_cons_of_mem _ hm))]

/-- The first colliding predator flips the flag and takes the bounty; all
predators after it (colliding or not) are unchanged. -/
lemma hostileInner_first_hit (ppos : PositionSize) (as cs : List Agent)
    (b : Agent) (ha : ∀ q ∈ as, ¬ is_colliding ppos q.pos)
    (hb : is_colliding ppos b.pos) :
    hostileInner ppos false (as ++ b :: cs) =
      (true, as ++ { b with life := b.life + 500 } :: cs) := by
  induction as with
  | nil =>
    simp only [List.nil_append]
    rw [hostileInner, if_pos ⟨hb, rfl⟩, hostileInner_of_dead]
  | cons a rest ih =>
    have hq : ¬ (is_colliding ppos a.pos ∧ false = false) := by
      simp [ha a (List.mem_cons_self a rest)]
    rw [List.cons_append, hostileInner, if_neg hq,
      ih (fun q hm => ha q (List.mem_cons_of_mem _ hm))]
    rfl

/-- C2 (amended): a live prey overlapping at least one predator in the
collision pass is flagged mortal exactly once, and ONLY the first
overlapping predator in query-iteration order has its life increased by
the fixed bounty 500 — later overlapping predators observe the prey
already mortal and are left unchanged. -/
theorem predation_first_predator_bounty (p : Agent) (as cs : List Agent)
    (b : Agent) (pool : ℤ) (ni : ℕ) (hp : p.dead = false)
    (ha : ∀ q ∈ as, ¬ is_colliding p.pos q.pos)
    (hb : is_colliding p.pos b.pos) :
    handle_hostile_collisions
      { predators := as ++ b :: cs, preys := [p], energy_pool := pool,
        nextIdx := ni } =
    { predators := as ++ { b with life := b.life + 500 } :: cs,
      preys := [{ p with dead := true }], energy_pool := pool,
      nextIdx := ni } := by
  simp only [handle_hostile_collisions, hostileOuter, hp,
    hostileInner_first_hit p.pos as cs b ha hb]

/-- A live prey overlapped by both predators at once. -/
def preyOverlapped : Agent :=
  { idx := 0, status := 0, dead := false, life := 100,
    pos := ⟨0, 0, 4, 4⟩, target := none, targetIdx := none }

/-- The first predator in query order, overlapping the prey. -/
def predFirst : Agent :=
  { idx := 1, status := 0, dead := false, life := 100,
    pos := ⟨1, 0, 4, 4⟩, target := none, targetIdx := none }

/-- The second predator in query order, also overlapping the prey. -/
def predSecond : Agent :=
  { idx := 2, status := 0, dead := false, life := 100,
    pos := ⟨2, 0, 4, 4⟩, target := none, targetIdx := none }

/-- The world for the simultaneous-overlap counterexample. -/
def wHostile : World :=
  { predators := [predFirst, predSecond], preys := [preyOverlapped],
    energy_pool := 0, nextIdx := 3 }

/-- C2 is false on the code: with one live prey overlapping two predators
(N = 2), the claim requires both predators to gain the bounty, but only
the first one does (600); the second predator's life is unchanged (100)
because the guard sees the prey already mortal. -/
theorem predation_second_predator_unpaid_counterexample :
    (handle_hostile_collisions wHostile).predators.map Agent.life = [600, 100] ∧
    (handle_hostile_collisions wHostile).preys.map Agent.dead = [true] := by
  constructor <;>
    norm_num [handle_hostile_collisions, hostileOuter, hostileInner,
      is_colliding, wHostile, preyOverlapped, predFirst, predSecond]

/-! ### C1: the predator pair double-spawn -/

/-- First of two mutually-in-range predators, both above the threshold. -/
def predMateA : Agent :=
  { idx := 0, status := 0, dead := false, life := 500,
    pos := ⟨0, 0, 4, 4⟩, target := none, targetIdx := none }

/-- Second of the pair, one unit away (their boxes overlap). -/
def predMateB : Agent :=
  { idx := 1, status := 0, dead := false, life := 500,
    pos := ⟨1, 0, 4, 4⟩, target := none, targetIdx := none }

/-- The two-predator world for the double-spawn scenario. -/
def wPredPair : World :=
  { predators := [predMateA, predMateB], preys := [], energy_pool := 0,
    nextIdx := 2 }

/-- C1 fails on predators: try_mate_predator records each partner's
position but never its index, so both partners carry `index = None`, the
tie-break in handle_mating is skipped for both, and BOTH parents spawn —
two offspring (4 predators) instead of the claimed exactly one (3). -/
theorem predator_pair_double_spawn :
    ((try_mate_predator sTest wPredPair).predators.map
      (fun a => (a.target, a.targetIdx))) =
      [(some ⟨1, 0, 4, 4⟩, none), (some ⟨0, 0, 4, 4⟩, none)] ∧
    (handle_mating sTest (try_mate_predator sTest wPredPair)).predators.length = 4 := by
  have h1 : Real.sqrt (((0 : ℝ) - 1) ^ 2 + ((0 : ℝ) - 0) ^ 2) = 1 := by
    rw [show ((0 : ℝ) - 1) ^ 2 + ((0 : ℝ) - 0) ^ 2 = 1 by norm_num]
    exact Real.sqrt_one
  have h2 : Real.sqrt (((1 : ℝ) - 0) ^ 2 + ((0 : ℝ) - 0) ^ 2) = 1 := by
    rw [show ((1 : ℝ) - 0) ^ 2 + ((0 : ℝ) - 0) ^ 2 = 1 by norm_num]
    exact Real.sqrt_one
  constructor <;>
    norm_num [try_mate_predator, tryMatePredatorStep, mateScanPredator,
      in_detection_range, handle_mating, mateStep, is_colliding, newborn,
      List.filterMap_cons, wPredPair, predMateA, predMateB, sTest, h1, h2,
      f32MAX]

/-! ### C3: prey energy loss and environment feeding -/

/-- The zero jitter stream: every random draw of `wiggle_squares` is 0. -/
def jZero : ℕ → ℝ × ℝ := fun _ => (0, 0)

/-- A prey with life 10, no predator anywhere, used for the feeding
scenario. -/
def preyFeeding : Agent :=
  { idx := 0, status := 0, dead := false, life := 10,
    pos := ⟨0, 0, 4, 4⟩, target := none, targetIdx := none }

/-- The feeding-scenario world: one prey, no predators, pool 5. -/
def wFeed : World :=
  { predators := [], preys := [preyFeeding], energy_pool := 5, nextIdx := 1 }

/-- C3: a prey loses the fixed energy-loss amount exactly in the
"actively hunted" sub-state (status 3); any prey whose recomputed status
is not 3 (which is every prey) feeds when the pool is positive, taking
one unit and gaining one life; and the spec scenario: life 10, no
predator in range, pool 5 at feed gain 1 ends the tick at life 11 with
the pool down by one. -/
theorem prey_energy_model :
    (∀ (s : Settings) (a : Agent),
      (a.status = 3 → (drainPrey s a).life = a.life - s.prey_energy_loss) ∧
      (¬ a.status = 3 → (drainPrey s a).life = a.life) ∧
      (0 < s.prey_energy_loss → ((drainPrey s a).life < a.life ↔ a.status = 3))) ∧
    (∀ (s : Settings) (pp : List PositionSize) (pool : ℤ) (a : Agent),
      0 < pool → (updatePreyStep s pp pool a).1 = pool - 1 ∧
        (updatePreyStep s pp pool a).2.life = a.life + 1) ∧
    ((tick sTest jZero wFeed).preys.map Agent.life = [11] ∧
      (tick sTest jZero wFeed).energy_pool = 4) := by
  refine ⟨?_, ?_, ?_⟩
  · intro s a
    refine ⟨fun h => by simp [drainPrey, h], fun h => by simp [drainPrey, h], ?_⟩
    intro hpos
    by_cases h : a.status = 3
    · simp [drainPrey, h, hpos]
    · simp [drainPrey, h]
  · intro s pp pool a h
    simp only [updatePreyStep]
    have hf : 0 < pool ∧
        ¬ (if (findClosest a.pos s.prey_detection_range pp).1.isSome = true then (2 : ℕ)
           else if can_mate a.life s.prey_reproduction_energy a.status then 1
           else 0) = 3 := by
      refine ⟨h, ?_⟩
      split_ifs <;> norm_num
    rw [if_pos hf, if_pos hf]
    exact ⟨rfl, rfl⟩
  · have hr : rustRound (((5 : ℤ) : ℝ) * (1 : ℝ)) = 5 := by
      rw [show ((5 : ℤ) : ℝ) * (1 : ℝ) = ((5 : ℤ) : ℝ) by norm_num]
      rw [rustRound, if_pos (by norm_num)]
      exact round_intCast 5
    constructor <;>
      norm_num [tick, update_environment, rustRound, wiggle_squares, wiggleOne,
        jZero, handle_mating, mateStep, update_preys, updatePreysGo,
        updatePreyStep, findClosest, can_mate, update_predators,
        try_mate_prey, tryMatePreyStep, try_mate_predator, window_collision,
        clampPos, handle_hostile_collisions, hostileOuter, hostileInner,
        remove_dead, drain_life, drainPrey, List.filterMap_cons, hr,
        wFeed, preyFeeding, sTest]

/-! ### C9: steering -/

/-- The hunting predator of the horizontal-seek scenario. -/
def predSeek : Agent :=
  { idx := 0, status := 0, dead := false, life := 100,
    pos := ⟨0, 0, 4, 4⟩, target := none, targetIdx := none }

/-- The prey it hunts, 10 units along the x-axis. -/
def preySeekTarget : Agent :=
  { idx := 1, status := 0, dead := false, life := 100,
    pos := ⟨10, 0, 4, 4⟩, target := none, targetIdx := none }

/-- The scenario settings: predator speed 2, detection radius 60. -/
def sSeek : Settings := { sTest with predator_speed := 2 }

/-- The scenario world: one predator at the origin, one prey at (10,0). -/
def wSeek : World :=
  { predators := [predSeek], preys := [preySeekTarget], energy_pool := 0,
    nextIdx := 2 }

/-- C9: the flee step displaces by exactly the negation of the seek step,
the seek step displaces by (cos angle, sin angle) * speed with angle =
atan2(dy, dx); and in the scenario (predator (0,0), prey (10,0),
detection 60, speed 2, zero jitter) one tick moves the predator to
exactly (2, 0). -/
theorem steering_seek_flee :
    (∀ (e t : PositionSize) (sp : ℝ),
      (avoid e t sp).x - e.x = -((move_towards e t sp).x - e.x) ∧
      (avoid e t sp).y - e.y = -((move_towards e t sp).y - e.y) ∧
      (move_towards e t sp).x =
        e.x + Real.cos (atan2 (t.y - e.y) (t.x - e.x)) * sp ∧
      (move_towards e t sp).y =
        e.y + Real.sin (atan2 (t.y - e.y) (t.x - e.x)) * sp) ∧
    (tick sSeek jZero wSeek).predators.map (fun a => (a.pos.x, a.pos.y)) =
      [(2, 0)] := by
  constructor
  · intro e t sp
    refine ⟨?_, ?_, rfl, rfl⟩
    · simp only [avoid, move_towards]
      ring
    · simp only [avoid, move_towards]
      ring
  · have hatan : atan2 0 10 = 0 := by
      rw [atan2, show (⟨10, 0⟩ : ℂ) = ((10 : ℝ) : ℂ) from rfl]
      exact Complex.arg_ofReal_of_nonneg (by norm_num)
    have h1 : Real.sqrt (((0 : ℝ) - 10) ^ 2 + ((0 : ℝ) - 0) ^ 2) = 10 := by
      rw [show ((0 : ℝ) - 10) ^ 2 + ((0 : ℝ) - 0) ^ 2 = 100 by norm_num]
      exact sqrt_hundred
    have h2 : Real.sqrt (((10 : ℝ) - 0) ^ 2 + ((0 : ℝ) - 0) ^ 2) = 10 := by
      rw [show ((10 : ℝ) - 0) ^ 2 + ((0 : ℝ) - 0) ^ 2 = 100 by norm_num]
      exact sqrt_hundred
    norm_num [tick, update_environment, rustRound, wiggle_squares, wiggleOne,
      jZero, handle_mating, mateStep, update_preys, updatePreysGo,
      updatePreyStep, update_predators, updatePredatorStep, findClosest,
      in_detection_range, can_mate, avoid, move_towards, try_mate_prey,
      tryMatePreyStep, try_mate_predator, tryMatePredatorStep,
      window_collision, clampPos, handle_hostile_collisions, hostileOuter,
      hostileInner, is_colliding, remove_dead, drain_life, drainPredator,
      drainPrey, List.filterMap_cons, h1, h2, hatan, sqrt_hundred, f32MAX,
      wSeek, predSeek, preySeekTarget, sSeek, sTest]

/-! ### C10: configuration values that never influence the simulation -/

/-- A configuration with the three never-read fields replaced. -/
def swapUnused (s : Settings) (a b : ℤ) (c : Bool) : Settings :=
  { s with
    prey_idle_energy_gain := a,
    predator_hunt_energy_gain := b,
    wiggle_when_hunted := c }

/-- The sequential prey traversal ignores the three unused fields. -/
lemma updatePreysGo_swapUnused (s : Settings) (a b : ℤ) (c : Bool)
    (pp : List PositionSize) (pool : ℤ) (l : List Agent) :
    updatePreysGo (swapUnused s a b c) pp pool l = updatePreysGo s pp pool l := by
  induction l generalizing pool with
  | nil => rfl
  | cons x xs ih =>
    rw [updatePreysGo, updatePreysGo]
    rw [show updatePreyStep (swapUnused s a b c) pp pool x =
      updatePreyStep s pp pool x from rfl]
    rw [ih]

/-- The prey pass ignores the three unused fields. -/
lemma update_preys_swapUnused (s : Settings) (a b : ℤ) (c : Bool)
    (w : World) : update_preys (swapUnused s a b c) w = update_preys s w := by
  simp only [update_preys, updatePreysGo_swapUnused]

/-- One tick ignores the three unused fields. -/
lemma tick_swapUnused (s : Settings) (a b : ℤ) (c : Bool) (j : ℕ → ℝ × ℝ)
    (w : World) : tick (swapUnused s a b c) j w = tick s j w := by
  rw [tick, tick,
    show update_environment (swapUnused s a b c) w = update_environment s w
      from rfl]
  generalize update_environment s w = w1
  generalize wiggle_squares j w1 = w2
  rw [show handle_mating (swapUnused s a b c) w2 = handle_mating s w2 from rfl]
  generalize handle_mating s w2 = w3
  rw [update_preys_swapUnused]
  generalize update_preys s w3 = w4
  rw [show update_predators (swapUnused s a b c) w4 = update_predators s w4
    from rfl]
  generalize update_predators s w4 = w5
  rw [show try_mate_prey (swapUnused s a b c) w5 = try_mate_prey s w5 from rfl]
  generalize try_mate_prey s w5 = w6
  rw [show try_mate_predator (swapUnused s a b c) w6 = try_mate_predator s w6
    from rfl]
  generalize try_mate_predator s w6 = w7
  rw [show window_collision (swapUnused s a b c) w7 = window_collision s w7
    from rfl]
  generalize window_collision s w7 = w8
  rw [show drain_life (swapUnused s a b c)
      (remove_dead (handle_hostile_collisions w8)) =
    drain_life s (remove_dead (handle_hostile_collisions w8)) from rfl]

/-- C10: two runs whose configurations differ only in
prey_idle_energy_gain, predator_hunt_energy_gain and wiggle_when_hunted
(same jitter draws) are identical at every tick: no pass reads these
fields — the predation bounty is the literal 500 and the feed gain the
literal 1. -/
theorem unused_settings_irrelevant (s : Settings) (J : ℕ → ℕ → ℝ × ℝ)
    (w : World) (n : ℕ) (a b : ℤ) (c : Bool) :
    run (swapUnused s a b c) J w n = run s J w n := by
  induction n with
  | zero => rfl
  | succ n ih =>
    rw [run, run, ih, tick_swapUnused]

/-! ### C6: the energy pool invariant -/

/-- Rounding half away from zero preserves nonnegativity. -/
lemma rustRound_nonneg (x : ℝ) (h : 0 ≤ x) : 0 ≤ rustRound x := by
  rw [rustRound, if_pos h, round_eq]
  exact Int.floor_nonneg.mpr (by linarith)

/-- The status freshly assigned to a prey is never 3. -/
lemma updatePreyStep_status_ne_three (s : Settings) (pp : List PositionSize)
    (pool : ℤ) (a : Agent) : ¬ (updatePreyStep s pp pool a).2.status = 3 := by
  rw [updatePreyStep_status]
  split_ifs <;> norm_num

/-- The pool left by one prey: one unit is consumed exactly when the pool
is positive (the freshly assigned status is never 3). -/
lemma updatePreyStep_fst (s : Settings) (pp : List PositionSize) (pool : ℤ)
    (a : Agent) :
    (updatePreyStep s pp pool a).1 = if 0 < pool then pool - 1 else pool := by
  by_cases hp : 0 < pool
  · rw [if_pos hp]
    simp only [updatePreyStep]
    rw [if_pos ⟨hp, updatePreyStep_status_ne_three s pp pool a⟩]
  · rw [if_neg hp]
    simp only [updatePreyStep]
    rw [if_neg (fun hc => hp hc.1)]

/-- The pool never grows and never turns negative across the prey pass. -/
lemma updatePreysGo_pool_bounds (s : Settings) (pp : List PositionSize)
    (l : List Agent) : ∀ pool : ℤ,
    (updatePreysGo s pp pool l).1 ≤ pool ∧
    (0 ≤ pool → 0 ≤ (updatePreysGo s pp pool l).1) := by
  induction l with
  | nil => intro pool; simp [updatePreysGo]
  | cons x xs ih =>
    intro pool
    simp only [updatePreysGo, updatePreyStep_fst]
    by_cases hp : 0 < pool
    · rw [if_pos hp]
      refine ⟨le_trans (ih (pool - 1)).1 (by omega), fun _ => (ih (pool - 1)).2 (by omega)⟩
    · rw [if_neg hp]
      exact ih pool

/-- The pool bounds hold after one full tick, provided the growth rate
and the cap are nonnegative and the pool was nonnegative before. -/
lemma tick_pool_bounds (s : Settings) (j : ℕ → ℝ × ℝ) (w : World)
    (hg : 0 ≤ s.environment_grow_rate) (hm : 0 ≤ s.environment_max)
    (h0 : 0 ≤ w.energy_pool) :
    0 ≤ (tick s j w).energy_pool ∧
    (tick s j w).energy_pool ≤ s.environment_max := by
  have h1 : 0 ≤ (update_environment s w).energy_pool ∧
      (update_environment s w).energy_pool ≤ s.environment_max := by
    constructor
    · exact le_min (rustRound_nonneg _
        (mul_nonneg (Int.cast_nonneg.mpr h0) hg)) hm
    · exact min_le_right _ _
  have hpool : (tick s j w).energy_pool =
      (updatePreysGo s
        ((handle_mating s (wiggle_squares j (update_environment s w))).predators.map
          Agent.pos)
        (update_environment s w).energy_pool
        (handle_mating s (wiggle_squares j (update_environment s w))).preys).1 := rfl
  rw [hpool]
  have hb := updatePreysGo_pool_bounds s
    ((handle_mating s (wiggle_squares j (update_environment s w))).predators.map
      Agent.pos)
    (handle_mating s (wiggle_squares j (update_environment s w))).preys
    (update_environment s w).energy_pool
  exact ⟨hb.2 h1.1, le_trans hb.1 h1.2⟩

/-- C6: in every reachable state of a run started from the setup pool
(half the cap), the pool stays within [0, max]: growth is capped by min
and feeding is guarded by positivity; nonnegative growth rate and cap are
what the configuration provides. -/
theorem energy_pool_invariant (s : Settings) (J : ℕ → ℕ → ℝ × ℝ)
    (w0 : World) (hg : 0 ≤ s.environment_grow_rate)
    (hm : 0 ≤ s.environment_max)
    (h0 : w0.energy_pool = initial_energy_pool s) (n : ℕ) :
    0 ≤ (run s J w0 n).energy_pool ∧
    (run s J w0 n).energy_pool ≤ s.environment_max := by
  induction n with
  | zero =>
    rw [run, h0, initial_energy_pool,
      Int.tdiv_eq_ediv hm (by norm_num : (0 : ℤ) ≤ 2)]
    omega
  | succ n ih =>
    exact tick_pool_bounds s (J n) (run s J w0 n) hg hm ih.1

/-! ### C4: lifecycle of mortal agents -/

/-- Membership tracking through a map that keeps index and flag. -/
lemma mem_map_exists {f : Agent → Agent} {l : List Agent} {b : Agent}
    (hb : b ∈ l.map f)
    (hf : ∀ a, (f a).idx = a.idx ∧ (f a).dead = a.dead) :
    ∃ a ∈ l, b.idx = a.idx ∧ b.dead = a.dead := by
  obtain ⟨a, ha, rfl⟩ := List.mem_map.mp hb
  exact ⟨a, ha, (hf a).1, (hf a).2⟩

/-- Membership tracking through an indexed map that keeps index and flag. -/
lemma mem_mapIdx_exists {g : ℕ → Agent → Agent} {l : List Agent} {b : Agent}
    (hb : b ∈ l.mapIdx g)
    (hg : ∀ i a, (g i a).idx = a.idx ∧ (g i a).dead = a.dead) :
    ∃ a ∈ l, b.idx = a.idx ∧ b.dead = a.dead := by
  induction l generalizing g with
  | nil => simp [List.mapIdx_nil] at hb
  | cons a l ih =>
    rw [List.mapIdx_cons] at hb
    rcases List.mem_cons.mp hb with h | h
    · exact ⟨a, List.mem_cons_self a l, h ▸ (hg 0 a).1, h ▸ (hg 0 a).2⟩
    · obtain ⟨a', ha', h1, h2⟩ := ih h (fun i a => hg (i + 1) a)
      exact ⟨a', List.mem_cons_of_mem _ ha', h1, h2⟩

/-- Newborn entities spawned with indices drawn from `g` have index at
least `ni` whenever every `g i` is. -/
lemma mem_mapIdx_newborn {s : Settings} {lv : ℤ} {g : ℕ → ℕ} {ni : ℕ}
    {l : List (ℝ × ℝ)} {b : Agent}
    (hb : b ∈ l.mapIdx (fun i p => newborn s lv (g i) p))
    (hg : ∀ i, ni ≤ g i) : ni ≤ b.idx := by
  induction l generalizing g with
  | nil => simp [List.mapIdx_nil] at hb
  | cons p l ih =>
    rw [List.mapIdx_cons] at hb
    rcases List.mem_cons.mp hb with h | h
    · rw [h]
      exact hg 0
    · exact ih h (fun i => hg (i + 1))

/-- The consummation step keeps the entity's index and mortality flag. -/
lemma mateStep_fst_preserves (required : ℤ) (ip : Bool) (a : Agent) :
    (mateStep required ip a).1.idx = a.idx ∧
    (mateStep required ip a).1.dead = a.dead := by
  by_cases h1 : (a.status = 2 ∧ ip = true) ∨ a.life < required
  · simp [mateStep, h1]
  · cases ht : a.target with
    | none => simp [mateStep, h1, ht]
    | some t =>
      by_cases h2 : ¬ is_colliding a.pos t
      · simp [mateStep, h1, ht, h2]
      · by_cases h3 : (match a.targetIdx with
          | some i => a.idx < i
          | none => False)
        · simp [mateStep, h1, ht, h2, h3]
        · simp [mateStep, h1, ht, h2, h3]

/-- The prey target-acquisition step keeps index and mortality flag. -/
lemma tryMatePreyStep_preserves (s : Settings) (targets : List Agent)
    (a : Agent) :
    (tryMatePreyStep s targets a).idx = a.idx ∧
    (tryMatePreyStep s targets a).dead = a.dead := by
  by_cases h : a.life < s.prey_reproduction_energy
  · simp [tryMatePreyStep, h]
  · simp only [tryMatePreyStep, if_neg h]
    cases hsc : (mateScanPrey s a.idx a.pos targets).1 <;> simp [hsc]

/-- The predator target-acquisition step keeps index and mortality flag. -/
lemma tryMatePredatorStep_preserves (s : Settings) (targets : List Agent)
    (a : Agent) :
    (tryMatePredatorStep s targets a).idx = a.idx ∧
    (tryMatePredatorStep s targets a).dead = a.dead := by
  by_cases h : a.life < s.predator_reproduction_energy
  · simp [tryMatePredatorStep, h]
  · simp only [tryMatePredatorStep, if_neg h]
    cases hsc : (mateScanPredator s a.idx a.pos targets).1 <;> simp [hsc]

/-- Membership tracking through the sequential prey pass. -/
lemma updatePreysGo_mem (s : Settings) (pp : List PositionSize)
    (l : List Agent) : ∀ (pool : ℤ) (b : Agent),
    b ∈ (updatePreysGo s pp pool l).2 →
    ∃ a ∈ l, b.idx = a.idx ∧ b.dead = a.dead := by
  induction l with
  | nil => intro pool b hb; simp [updatePreysGo] at hb
  | cons x xs ih =>
    intro pool b hb
    simp only [updatePreysGo] at hb
    rcases List.mem_cons.mp hb with h | h
    · exact ⟨x, List.mem_cons_self x xs, by rw [h]; exact ⟨rfl, rfl⟩⟩
    · obtain ⟨a, ha, h1, h2⟩ := ih _ b h
      exact ⟨a, List.mem_cons_of_mem _ ha, h1, h2⟩

/-- Membership tracking through the predation inner scan: predators keep
their index and flag (only life changes). -/
lemma hostileInner_mem (ppos : PositionSize) (qs : List Agent) :
    ∀ (d : Bool) (b : Agent), b ∈ (hostileInner ppos d qs).2 →
    ∃ a ∈ qs, b.idx = a.idx ∧ b.dead = a.dead := by
  induction qs with
  | nil => intro d b hb; simp [hostileInner] at hb
  | cons q rest ih =>
    intro d b hb
    rw [hostileInner] at hb
    by_cases hc : is_colliding ppos q.pos ∧ d = false
    · rw [if_pos hc] at hb
      rcases List.mem_cons.mp hb with h | h
      · exact ⟨q, List.mem_cons_self q rest, by rw [h]; exact ⟨rfl, rfl⟩⟩
      · obtain ⟨a, ha, h1, h2⟩ := ih true b h
        exact ⟨a, List.mem_cons_of_mem _ ha, h1, h2⟩
    · rw [if_neg hc] at hb
      rcases List.mem_cons.mp hb with h | h
      · exact ⟨q, List.mem_cons_self q rest, by rw [h]; exact ⟨rfl, rfl⟩⟩
      · obtain ⟨a, ha, h1, h2⟩ := ih d b h
        exact ⟨a, List.mem_cons_of_mem _ ha, h1, h2⟩

/-- Membership tracking through the predation outer loop, prey side: the
index is kept and the mortality flag can only be raised. -/
lemma hostileOuter_preys_mem (ps : List Agent) :
    ∀ (qs : List Agent) (b : Agent), b ∈ (hostileOuter ps qs).1 →
    ∃ a ∈ ps, b.idx = a.idx ∧ (a.dead = true → b.dead = true) := by
  induction ps with
  | nil => intro qs b hb; simp [hostileOuter] at hb
  | cons p rest ih =>
    intro qs b hb
    simp only [hostileOuter] at hb
    rcases List.mem_cons.mp hb with h | h
    · refine ⟨p, List.mem_cons_self p rest, by rw [h], ?_⟩
      intro hd
      rw [h]
      show (hostileInner p.pos p.dead qs).1 = true
      rw [hd, hostileInner_of_dead]
    · obtain ⟨a, ha, h1, h2⟩ := ih _ b h
      exact ⟨a, List.mem_cons_of_mem _ ha, h1, h2⟩

/-- Membership tracking through the predation outer loop, predator side. -/
lemma hostileOuter_predators_mem (ps : List Agent) :
    ∀ (qs : List Agent) (b : Agent), b ∈ (hostileOuter ps qs).2 →
    ∃ a ∈ qs, b.idx = a.idx ∧ b.dead = a.dead := by
  induction ps with
  | nil => intro qs b hb; simp only [hostileOuter] at hb; exact ⟨b, hb, rfl, rfl⟩
  | cons p rest ih =>
    intro qs b hb
    simp only [hostileOuter] at hb
    obtain ⟨a, ha, h1, h2⟩ := ih _ b hb
    obtain ⟨a', ha', h1', h2'⟩ := hostileInner_mem p.pos qs p.dead a ha
    exact ⟨a', ha', h1.trans h1', h2.trans h2'⟩

/-- Every agent carrying index `k` (if any) is flagged mortal. -/
def FlagDead (k : ℕ) (w : World) : Prop :=
  ∀ b : Agent, (b ∈ w.predators ∨ b ∈ w.preys) → b.idx = k → b.dead = true

/-- The environment pass touches no agent. -/
lemma flagDead_update_environment {k : ℕ} {s : Settings} {w : World}
    (h : FlagDead k w) : FlagDead k (update_environment s w) := by
  intro b hb
  exact h b hb

/-- The jitter pass keeps indices and flags. -/
lemma flagDead_wiggle {k : ℕ} {j : ℕ → ℝ × ℝ} {w : World}
    (h : FlagDead k w) : FlagDead k (wiggle_squares j w) := by
  intro b hb hbk
  simp only [wiggle_squares] at hb
  rcases hb with hb | hb
  · obtain ⟨a, ha, h1, h2⟩ := mem_mapIdx_exists hb (fun i a => ⟨rfl, rfl⟩)
    rw [h2]
    exact h a (Or.inl ha) (h1 ▸ hbk)
  · obtain ⟨a, ha, h1, h2⟩ := mem_mapIdx_exists hb (fun i a => ⟨rfl, rfl⟩)
    rw [h2]
    exact h a (Or.inr ha) (h1 ▸ hbk)

/-- The consummation pass keeps indices and flags of the old agents and
spawns only with fresh indices above `nextIdx`. -/
lemma flagDead_handle_mating {k : ℕ} {s : Settings} {w : World}
    (hk : k < w.nextIdx) (h : FlagDead k w) :
    FlagDead k (handle_mating s w) := by
  intro b hb hbk
  simp only [handle_mating] at hb
  rcases hb with hb | hb
  · rcases List.mem_append.mp hb with hb | hb
    · obtain ⟨x, hx, rfl⟩ := List.mem_map.mp hb
      obtain ⟨a, ha, rfl⟩ := List.mem_map.mp hx
      rw [(mateStep_fst_preserves _ _ a).2]
      exact h a (Or.inl ha) ((mateStep_fst_preserves _ _ a).1 ▸ hbk)
    · have hge : w.nextIdx ≤ b.idx :=
        mem_mapIdx_newborn hb (fun i => Nat.le_add_right _ i)
      omega
  · rcases List.mem_append.mp hb with hb | hb
    · obtain ⟨x, hx, rfl⟩ := List.mem_map.mp hb
      obtain ⟨a, ha, rfl⟩ := List.mem_map.mp hx
      rw [(mateStep_fst_preserves _ _ a).2]
      exact h a (Or.inr ha) ((mateStep_fst_preserves _ _ a).1 ▸ hbk)
    · have hge : w.nextIdx ≤ b.idx :=
        mem_mapIdx_newborn hb (fun i => by omega)
      omega

/-- The prey pass keeps indices and flags. -/
lemma flagDead_update_preys {k : ℕ} {s : Settings} {w : World}
    (h : FlagDead k w) : FlagDead k (update_preys s w) := by
  intro b hb hbk
  simp only [update_preys] at hb
  rcases hb with hb | hb
  · exact h b (Or.inl hb) hbk
  · obtain ⟨a, ha, h1, h2⟩ := updatePreysGo_mem s _ w.preys _ b hb
    rw [h2]
    exact h a (Or.inr ha) (h1 ▸ hbk)

/-- The predator pass keeps indices and flags. -/
lemma flagDead_update_predators {k : ℕ} {s : Settings} {w : World}
    (h : FlagDead k w) : FlagDead k (update_predators s w) := by
  intro b hb hbk
  simp only [update_predators] at hb
  rcases hb with hb | hb
  · obtain ⟨a, ha, h1, h2⟩ := mem_map_exists hb (fun a => ⟨rfl, rfl⟩)
    rw [h2]
    exact h a (Or.inl ha) (h1 ▸ hbk)
  · exact h b (Or.inr hb) hbk

/-- The prey target-acquisition pass keeps indices and flags. -/
lemma flagDead_try_mate_prey {k : ℕ} {s : Settings} {w : World}
    (h : FlagDead k w) : FlagDead k (try_mate_prey s w) := by
  intro b hb hbk
  simp only [try_mate_prey] at hb
  rcases hb with hb | hb
  · exact h b (Or.inl hb) hbk
  · obtain ⟨a, ha, h1, h2⟩ :=
      mem_map_exists hb (tryMatePreyStep_preserves s w.preys)
    rw [h2]
    exact h a (Or.inr ha) (h1 ▸ hbk)

/-- The predator target-acquisition pass keeps indices and flags. -/
lemma flagDead_try_mate_predator {k : ℕ} {s : Settings} {w : World}
    (h : FlagDead k w) : FlagDead k (try_mate_predator s w) := by
  intro b hb hbk
  simp only [try_mate_predator] at hb
  rcases hb with hb | hb
  · obtain ⟨a, ha, h1, h2⟩ :=
      mem_map_exists hb (tryMatePredatorStep_preserves s w.predators)
    rw [h2]
    exact h a (Or.inl ha) (h1 ▸ hbk)
  · exact h b (Or.inr hb) hbk

/-- The boundary pass keeps indices and flags. -/
lemma flagDead_window {k : ℕ} {s : Settings} {w : World}
    (h : FlagDead k w) : FlagDead k (window_collision s w) := by
  intro b hb hbk
  simp only [window_collision] at hb
  rcases hb with hb | hb
  · obtain ⟨a, ha, h1, h2⟩ := mem_map_exists hb (fun a => ⟨rfl, rfl⟩)
    rw [h2]
    exact h a (Or.inl ha) (h1 ▸ hbk)
  · obtain ⟨a, ha, h1, h2⟩ := mem_map_exists hb (fun a => ⟨rfl, rfl⟩)
    rw [h2]
    exact h a (Or.inr ha) (h1 ▸ hbk)

/-- The predation pass keeps indices and only raises flags. -/
lemma flagDead_hostile {k : ℕ} {w : World}
    (h : FlagDead k w) : FlagDead k (handle_hostile_collisions w) := by
  intro b hb hbk
  simp only [handle_hostile_collisions] at hb
  rcases hb with hb | hb
  · obtain ⟨a, ha, h1, h2⟩ := hostileOuter_predators_mem w.preys w.predators b hb
    rw [h2]
    exact h a (Or.inl ha) (h1 ▸ hbk)
  · obtain ⟨a, ha, h1, h2⟩ := hostileOuter_preys_mem w.preys w.predators b hb
    exact h2 (h a (Or.inr ha) (h1 ▸ hbk))

/-- After cleanup, no live agent carries index `k` anymore. -/
lemma remove_dead_no_flag {k : ℕ} {w : World} (h : FlagDead k w) :
    ∀ b : Agent, (b ∈ (remove_dead w).predators ∨ b ∈ (remove_dead w).preys) →
      ¬ b.idx = k := by
  intro b hb hbk
  simp only [remove_dead] at hb
  rcases hb with hb | hb
  · obtain ⟨hm, hd⟩ := List.mem_filter.mp hb
    rw [h b (Or.inl hm) hbk] at hd
    simp at hd
  · obtain ⟨hm, hd⟩ := List.mem_filter.mp hb
    rw [h b (Or.inr hm) hbk] at hd
    simp at hd

/-- The drain pass keeps indices, so absence of index `k` persists. -/
lemma drain_life_keeps_absent {k : ℕ} {s : Settings} {w : World}
    (h : ∀ b : Agent, (b ∈ w.predators ∨ b ∈ w.preys) → ¬ b.idx = k) :
    ∀ b : Agent,
      (b ∈ (drain_life s w).predators ∨ b ∈ (drain_life s w).preys) →
      ¬ b.idx = k := by
  intro b hb hbk
  simp only [drain_life] at hb
  rcases hb with hb | hb
  · obtain ⟨a, ha, rfl⟩ := List.mem_map.mp hb
    exact h a (Or.inl ha) hbk
  · obtain ⟨a, ha, rfl⟩ := List.mem_map.mp hb
    exact h a (Or.inr ha) hbk

/-- The nextIdx counter does not change before the consummation pass. -/
lemma wiggle_env_nextIdx (s : Settings) (j : ℕ → ℝ × ℝ) (w : World) :
    (wiggle_squares j (update_environment s w)).nextIdx = w.nextIdx := rfl

/-- C4 (amended): an agent that is flagged mortal at the START of a tick
is removed during that tick by the cleanup pass (no agent with its index
is present at the tick's end), and every agent still present but mortal
at a tick's END was flagged by that tick's drain_life pass, i.e. has
life at most 0 — it survives into the next tick, where the passes that
precede cleanup can still process it, and only then is it removed. -/
theorem mortal_agent_lifecycle :
    (∀ (s : Settings) (j : ℕ → ℝ × ℝ) (w : World) (k : ℕ),
      k < w.nextIdx → FlagDead k w →
      ∀ b : Agent, (b ∈ (tick s j w).predators ∨ b ∈ (tick s j w).preys) →
        ¬ b.idx = k) ∧
    (∀ (s : Settings) (j : ℕ → ℝ × ℝ) (w : World) (b : Agent),
      (b ∈ (tick s j w).predators ∨ b ∈ (tick s j w).preys) →
      b.dead = true → b.life ≤ 0) := by
  constructor
  · intro s j w k hk hw b hb
    simp only [tick] at hb
    refine drain_life_keeps_absent ?_ b hb
    apply remove_dead_no_flag
    apply flagDead_hostile
    apply flagDead_window
    apply flagDead_try_mate_predator
    apply flagDead_try_mate_prey
    apply flagDead_update_predators
    apply flagDead_update_preys
    apply flagDead_handle_mating
    · exact hk
    · exact flagDead_wiggle (flagDead_update_environment hw)
  · intro s j w b hb hd
    simp only [tick, drain_life] at hb
    rcases hb with hb | hb
    · obtain ⟨a, ha, rfl⟩ := List.mem_map.mp hb
      simp only [remove_dead] at ha
      have had : a.dead = false := by
        simpa using (List.mem_filter.mp ha).2
      by_cases hl : a.life - s.predator_energy_loss ≤ 0
      · simpa [drainPredator, hl] using hl
      · simp [drainPredator, hl, had] at hd
    · obtain ⟨a, ha, rfl⟩ := List.mem_map.mp hb
      simp only [remove_dead] at ha
      have had : a.dead = false := by
        simpa using (List.mem_filter.mp ha).2
      by_cases h3 : a.status = 3
      · by_cases hl : a.life - s.prey_energy_loss ≤ 0
        · simpa [drainPrey, h3, hl] using hl
        · simp [drainPrey, h3, hl, had] at hd
      · by_cases hl : a.life ≤ 0
        · simpa [drainPrey, h3, hl] using hl
        · simp [drainPrey, h3, hl, had] at hd

/-- A predator that is already flagged mortal at the start of a tick. -/
def predAlreadyDead : Agent :=
  { idx := 0, status := 0, dead := true, life := 0,
    pos := ⟨0, 0, 4, 4⟩, target := none, targetIdx := none }

/-- A world holding only the flagged predator. -/
def wDead1 : World :=
  { predators := [predAlreadyDead], preys := [], energy_pool := 0,
    nextIdx := 1 }

/-- Witness: applying the lifecycle theorem to the one-predator world,
discharging both hypotheses concretely. -/
theorem mortal_agent_lifecycle_witness :
    (0 : ℕ) < wDead1.nextIdx ∧
    (∀ b : Agent,
      (b ∈ (tick sTest jZero wDead1).predators ∨
        b ∈ (tick sTest jZero wDead1).preys) → ¬ b.idx = 0) := by
  constructor
  · norm_num [wDead1]
  · exact mortal_agent_lifecycle.1 sTest jZero wDead1 0 (by norm_num [wDead1])
      (by
        intro b hb hbk
        rcases hb with hb | hb
        · have hbe : b = predAlreadyDead := by simpa [wDead1] using hb
          rw [hbe]
          rfl
        · simp [wDead1] at hb)

/-- A predator that will hit zero life at this tick's drain pass. -/
def predDying : Agent :=
  { idx := 0, status := 0, dead := false, life := 1,
    pos := ⟨0, 0, 4, 4⟩, target := none, targetIdx := none }

/-- A prey 10 units away, inside detection range of the predator. -/
def preyWatcher : Agent :=
  { idx := 1, status := 0, dead := false, life := 100,
    pos := ⟨10, 0, 4, 4⟩, target := none, targetIdx := none }

/-- The world for the two-tick mortality counterexample. -/
def wDying : World :=
  { predators := [predDying], preys := [preyWatcher], energy_pool := 0,
    nextIdx := 2 }

/-- C4 is false on the code: drain_life is registered AFTER remove_dead,
so the predator flagged mortal at tick 1 (life 1 → 0) is still in the
store throughout tick 2's earlier passes — tick 2's update_preys still
perceives it (the prey's status ends as 2, avoiding, where it would be 0
with no predator present) — and only tick 2's cleanup removes it. -/
theorem mortal_processed_next_tick_counterexample :
    (tick sTest jZero wDying).predators.map Agent.dead = [true] ∧
    (tick sTest jZero (tick sTest jZero wDying)).preys.map Agent.status = [2] ∧
    (tick sTest jZero (tick sTest jZero wDying)).predators = [] := by
  have h1 : Real.sqrt (((0 : ℝ) - 10) ^ 2 + ((0 : ℝ) - 0) ^ 2) = 10 := by
    rw [show ((0 : ℝ) - 10) ^ 2 + ((0 : ℝ) - 0) ^ 2 = 100 by norm_num]
    exact sqrt_hundred
  have h2 : Real.sqrt (((10 : ℝ) - 0) ^ 2 + ((0 : ℝ) - 0) ^ 2) = 10 := by
    rw [show ((10 : ℝ) - 0) ^ 2 + ((0 : ℝ) - 0) ^ 2 = 100 by norm_num]
    exact sqrt_hundred
  refine ⟨?_, ?_, ?_⟩ <;>
    norm_num [tick, update_environment, rustRound, wiggle_squares, wiggleOne,
      jZero, handle_mating, mateStep, update_preys, updatePreysGo,
      updatePreyStep, update_predators, updatePredatorStep, findClosest,
      in_detection_range, can_mate, avoid, move_towards, try_mate_prey,
      tryMatePreyStep, try_mate_predator, tryMatePredatorStep,
      window_collision, clampPos, handle_hostile_collisions, hostileOuter,
      hostileInner, is_colliding, remove_dead, drain_life, drainPredator,
      drainPrey, List.filterMap_cons, h1, h2, sqrt_hundred, f32MAX,
      wDying, predDying, preyWatcher, sTest]

/-! ### Witnesses -/

/-- Witness for the predation bounty theorem: the concrete two-predator
overlap, hypotheses discharged by evaluation. -/
theorem predation_first_predator_bounty_witness :
    handle_hostile_collisions
      { predators := [] ++ predFirst :: [predSecond], preys := [preyOverlapped],
        energy_pool := 0, nextIdx := 3 } =
    { predators := [] ++ { predFirst with life := predFirst.life + 500 } :: [predSecond],
      preys := [{ preyOverlapped with dead := true }], energy_pool := 0,
      nextIdx := 3 } :=
  predation_first_predator_bounty preyOverlapped [] [predSecond] predFirst 0 3
    rfl (by simp) (by norm_num [is_colliding, preyOverlapped, predFirst])

/-- Witness for the prey energy model: the drain at status 3, and the
feed with pool 5, evaluated at concrete inputs. -/
theorem prey_energy_model_witness :
    (drainPrey sTest { preyFeeding with status := 3 }).life =
      { preyFeeding with status := 3 }.life - sTest.prey_energy_loss ∧
    (updatePreyStep sTest [] 5 preyFeeding).1 = 4 ∧
    (updatePreyStep sTest [] 5 preyFeeding).2.life = 11 := by
  refine ⟨(prey_energy_model.1 sTest { preyFeeding with status := 3 }).1 rfl,
    ?_, ?_⟩
  · have h := prey_energy_model.2.1 sTest [] 5 preyFeeding (by norm_num)
    rw [h.1]
    norm_num
  · have h := prey_energy_model.2.1 sTest [] 5 preyFeeding (by norm_num)
    rw [h.2]
    norm_num [preyFeeding]

/-- A starting world whose pool is exactly the setup value (half the cap
of 1000). -/
def wPoolInit : World :=
  { predators := [], preys := [], energy_pool := 500, nextIdx := 0 }

/-- Witness for the pool invariant: two ticks from the setup pool under
the concrete settings, hypotheses discharged by evaluation. -/
theorem energy_pool_invariant_witness :
    (0 : ℝ) ≤ sTest.environment_grow_rate ∧
    (0 : ℤ) ≤ sTest.environment_max ∧
    wPoolInit.energy_pool = initial_energy_pool sTest ∧
    (0 ≤ (run sTest (fun _ => jZero) wPoolInit 2).energy_pool ∧
      (run sTest (fun _ => jZero) wPoolInit 2).energy_pool ≤
        sTest.environment_max) :=
  ⟨by norm_num [sTest], by norm_num [sTest], by decide,
    energy_pool_invariant sTest (fun _ => jZero) wPoolInit
      (by norm_num [sTest]) (by norm_num [sTest]) (by decide) 2⟩

/-- A prey about to consummate: colliding with its recorded target and
holding a lower partner ordinal than its own. -/
def preyConsummating : Agent :=
  { idx := 5, status := 0, dead := false, life := 300,
    pos := ⟨0, 0, 4, 4⟩, target := some ⟨1, 0, 4, 4⟩, targetIdx := some 3 }

/-- Witness for the target-clearing theorem: a qualifying consummation,
its hypothesis discharged by evaluation. -/
theorem mating_target_clearing_witness :
    (mateStep 200 true preyConsummating).2.isSome = true ∧
    ((mateStep 200 true preyConsummating).1.target = none ∧
      (mateStep 200 true preyConsummating).1.targetIdx = none ∧
      (mateStep 200 true preyConsummating).1.life =
        preyConsummating.life - 200) := by
  have hs : (mateStep 200 true preyConsummating).2.isSome = true := by
    norm_num [mateStep, is_colliding, preyConsummating]
  exact ⟨hs,
    (mating_target_clearing sTest [] preyConsummating 200 true).2.2.1 hs⟩

/-- A prey below the reproduction threshold. -/
def preyPoor : Agent :=
  { idx := 9, status := 0, dead := false, life := 0,
    pos := ⟨0, 0, 4, 4⟩, target := none, targetIdx := none }

/-- Witness for the acquisition theorem: an under-threshold seeker is
skipped, the hypothesis discharged by evaluation. -/
theorem mating_target_acquisition_witness :
    preyPoor.life < sTest.prey_reproduction_energy ∧
    tryMatePreyStep sTest [] preyPoor = preyPoor :=
  ⟨by norm_num [preyPoor, sTest],
    (mating_target_acquisition sTest [] preyPoor).2.1
      (by norm_num [preyPoor, sTest])⟩

end PredatorPrey
